import Mathlib

/-!
# gost-x: transparent-redirect handler and HTTP/2 listener

A shallow embedding of

* `handler/redirect/udp/handler.go` : `redirectHandler.Handle`, `redirectHandler.checkRateLimit`
* `listener/http2/listener.go` : `http2Listener.Init`, `Accept`, `Close`, `handleFunc`

Collaborators that live outside these two files (router, bypass policy, rate limiter,
recorder, `net.SplitHostPort`, `netpkg.Transport`, the sentinel errors, the HTTP server, the
listener wrappers) are taken as parameters.  Effects are made explicit as a list of events,
Go channels as bounded buffers with a `closed` flag, and a Go `select` with several ready
cases as a choice made by the caller of the model.  Calls on the listener are atomic and
sequential: a call that cannot proceed is reported as blocked and leaves the state as it
was.  Log output is left out.
-/

/-- A non-nil Go `error`; `Error` is the text of its `Error()` method.  A possibly-nil `error`
is an `Option GoError`, with `nil` as `none`. -/
structure GoError where
  Error : String
deriving DecidableEq, Repr

namespace Redirect

/-- A `net.Addr`: the results of its `Network()` and `String()` methods. -/
structure Addr where
  Network : String
  String : String
deriving DecidableEq, Repr

/-- The intercepted `net.Conn` as far as `Handle` reads it. -/
structure Conn where
  RemoteAddr : Addr
  LocalAddr : Addr
deriving DecidableEq, Repr

/-- The upstream connection returned by `Router.Dial`. -/
structure UpConn where
  id : Nat
deriving DecidableEq, Repr

/-- The `xrecorder.HandlerRecorderObject` fields that `Handle` writes.  `Time` and `Duration`
are in clock ticks. -/
structure HandlerRecorderObject where
  Service : String
  RemoteAddr : String
  LocalAddr : String
  ClientIP : String := ""
  Time : Nat
  SID : String
  Network : String := ""
  Host : String := ""
  Err : String := ""
  Duration : Nat := 0
deriving DecidableEq, Repr

/-- A `limiter.Limiter`: the answer of `Allow(n)`. -/
structure Limiter where
  Allow : Nat → Bool

/-- A `rate.RateLimiter`: `Limiter(key)` returns a limiter or nil. -/
structure RateLimiter where
  Limiter : String → Option Limiter

/-- A `bypass.Bypass`: `Contains(ctx, network, addr)`. -/
structure Bypass where
  Contains : String → String → Bool

/-- The router: `Dial(ctx, network, address)` returns a connection or an error. -/
structure Router where
  Dial : String → String → Except GoError UpConn

/-- The `handler.Options` fields read by `Handle`; a nil `RateLimiter` or `Bypass` is `none`. -/
structure Options where
  Service : String
  RateLimiter : Option RateLimiter
  Bypass : Option Bypass
  Router : Router

/-- The receiver of `Handle`. -/
structure redirectHandler where
  options : Options

/-- What `Handle` uses from outside the repository's two files: `net.SplitHostPort` (its host
result; the error is dropped by the caller), the sentinel errors `rate_limiter.ErrRateLimit`
and `xbypass.ErrBypass`, the result of `netpkg.Transport`, and the time each blocking call
takes on the clock read by `time.Now` and `time.Since`. -/
structure World where
  SplitHostPort : String → String
  ErrRateLimit : GoError
  ErrBypass : GoError
  Transport : Conn → UpConn → Option GoError
  allowTicks : Nat
  containsTicks : Nat
  dialTicks : Nat
  transportTicks : Nat

/-- The `context.Context` as far as `Handle` reads it: `ctxvalue.SidFromContext`. -/
structure Context where
  Sid : String

/-- The observable effects of one `Handle` call, in program order. -/
inductive Event where
  | limiterLookup (host : String)
  | allow (host : String) (n : Nat) (ok : Bool)
  | contains (network address : String) (hit : Bool)
  | dial (network address : String)
  | transport (cc : UpConn) (result : Option GoError)
  | upstreamClose (cc : UpConn)
  | record (ro : HandlerRecorderObject) (now : Nat)
  | connClose
deriving DecidableEq, Repr

/-- The method `redirectHandler.checkRateLimit`: the verdict and the calls made to obtain it. -/
def checkRateLimit (h : redirectHandler) (w : World) (addr : Addr) : Bool × List Event :=
  match h.options.RateLimiter with
  | none => (true, [])
  | some rl =>
    let host := w.SplitHostPort addr.String
    match rl.Limiter host with
    | some limiter =>
      let ok := limiter.Allow 1
      (ok, [Event.limiterLookup host, Event.allow host 1 ok])
    | none => (true, [Event.limiterLookup host])

/-- The state of `Handle` when its body returns and the deferred calls are about to run. -/
structure BodyResult where
  err : Option GoError
  ro : HandlerRecorderObject
  events : List Event
  now : Nat
  cc : Option UpConn

/-- The body of `redirectHandler.Handle` (lines 89 to 122), started at clock reading `start`
with the recorder object `ro` built at function entry. -/
def HandleBody (h : redirectHandler) (w : World) (conn : Conn) (start : Nat)
    (ro : HandlerRecorderObject) : BodyResult :=
  let rl := checkRateLimit h w conn.RemoteAddr
  let now := if h.options.RateLimiter.isSome then start + w.allowTicks else start
  if !rl.1 then
    { err := some w.ErrRateLimit, ro := ro, events := rl.2, now := now, cc := none }
  else
    let dstAddr := conn.LocalAddr
    let ro := { ro with Network := dstAddr.Network, Host := dstAddr.String }
    match h.options.Bypass with
    | some bp =>
      let hit := bp.Contains dstAddr.Network dstAddr.String
      let evs := rl.2 ++ [Event.contains dstAddr.Network dstAddr.String hit]
      let now := now + w.containsTicks
      if hit then
        { err := some w.ErrBypass, ro := ro, events := evs, now := now, cc := none }
      else
        match h.options.Router.Dial dstAddr.Network dstAddr.String with
        | Except.error e =>
          { err := some e, ro := ro,
            events := evs ++ [Event.dial dstAddr.Network dstAddr.String],
            now := now + w.dialTicks, cc := none }
        | Except.ok cc =>
          { err := none, ro := ro,
            events := evs ++ [Event.dial dstAddr.Network dstAddr.String,
              Event.transport cc (w.Transport conn cc)],
            now := now + w.dialTicks + w.transportTicks, cc := some cc }
    | none =>
      match h.options.Router.Dial dstAddr.Network dstAddr.String with
      | Except.error e =>
        { err := some e, ro := ro,
          events := rl.2 ++ [Event.dial dstAddr.Network dstAddr.String],
          now := now + w.dialTicks, cc := none }
      | Except.ok cc =>
        { err := none, ro := ro,
          events := rl.2 ++ [Event.dial dstAddr.Network dstAddr.String,
            Event.transport cc (w.Transport conn cc)],
          now := now + w.dialTicks + w.transportTicks, cc := some cc }

/-- The deferred closure of lines 77 to 87: set `Err` from the named result, set `Duration`,
flush the recorder object. -/
def deferredRecord (err : Option GoError) (ro : HandlerRecorderObject) (start now : Nat) :
    HandlerRecorderObject :=
  let ro := match err with
    | some e => { ro with Err := e.Error }
    | none => ro
  { ro with Duration := now - start }

/-- The result of `Handle`: the returned error and the effects in program order. -/
structure Outcome where
  err : Option GoError
  trace : List Event
deriving DecidableEq, Repr

/-- The recorder object built at the entry of `Handle`, lines 61 to 68. -/
def entryRecord (h : redirectHandler) (w : World) (ctx : Context) (conn : Conn) (start : Nat) :
    HandlerRecorderObject :=
  let ro : HandlerRecorderObject :=
    { Service := h.options.Service
      RemoteAddr := conn.RemoteAddr.String
      LocalAddr := conn.LocalAddr.String
      Time := start
      SID := ctx.Sid }
  { ro with ClientIP := w.SplitHostPort conn.RemoteAddr.String }

/-- The deferred `cc.Close()` of line 113, registered only after a successful dial. -/
def deferredUpstreamClose : Option UpConn → List Event
  | some cc => [Event.upstreamClose cc]
  | none => []

/-- The method `redirectHandler.Handle`, entered at clock reading `start`.  The deferred
calls run last in, first out: `cc.Close()` when the dial succeeded, then the recorder closure, then
`conn.Close()`. -/
def Handle (h : redirectHandler) (w : World) (ctx : Context) (conn : Conn) (start : Nat) :
    Outcome :=
  let b := HandleBody h w conn start (entryRecord h w ctx conn start)
  { err := b.err
    trace := b.events ++ deferredUpstreamClose b.cc ++
      [Event.record (deferredRecord b.err b.ro start b.now) b.now, Event.connClose] }

/-- The `Router.Dial` calls in a trace, as (network, address) pairs. -/
def dials : List Event → List (String × String)
  | [] => []
  | Event.dial n a :: es => (n, a) :: dials es
  | _ :: es => dials es

/-- The recorder objects flushed in a trace, each with the clock reading of its flush. -/
def records : List Event → List (HandlerRecorderObject × Nat)
  | [] => []
  | Event.record ro now :: es => (ro, now) :: records es
  | _ :: es => records es

/-- The text a returned error leaves in the recorder: its message, or empty for nil. -/
def errText : Option GoError → String
  | some e => e.Error
  | none => ""

/-- The collaborators used in the worked examples: `SplitHostPort` is given on the peer
addresses that occur there. -/
def exWorld : World :=
  { SplitHostPort := fun s =>
      if s = "203.0.113.9:51000" then "203.0.113.9"
      else if s = "198.51.100.7:40000" then "198.51.100.7" else ""
    ErrRateLimit := { Error := "rate limit" }
    ErrBypass := { Error := "bypass" }
    Transport := fun _ _ => some { Error := "read: connection reset by peer" }
    allowTicks := 1
    containsTicks := 2
    dialTicks := 30
    transportTicks := 500 }

/-- A router whose dial succeeds. -/
def exRouter : Router :=
  { Dial := fun _ _ => Except.ok { id := 7 } }

/-- A handler with no rate limiter and no bypass policy. -/
def exPlain : redirectHandler :=
  { options := { Service := "redu", RateLimiter := none, Bypass := none, Router := exRouter } }

/-- A limiter that denies every request. -/
def exDeny : Limiter :=
  { Allow := fun _ => false }

/-- A rate limiter with a limiter registered for host `203.0.113.9` only. -/
def exRateLimiter : RateLimiter :=
  { Limiter := fun host => if host = "203.0.113.9" then some exDeny else none }

/-- A handler whose rate limiter denies host `203.0.113.9`. -/
def exLimited : redirectHandler :=
  { options :=
      { Service := "redu", RateLimiter := some exRateLimiter, Bypass := none,
        Router := exRouter } }

/-- A handler whose bypass policy matches `10.0.0.5:443`. -/
def exBypassed : redirectHandler :=
  { options :=
      { Service := "redu"
        RateLimiter := none
        Bypass := some { Contains := fun _ a => decide (a = "10.0.0.5:443") }
        Router := exRouter } }

/-- A connection from `198.51.100.7:40000` intercepted with local address
`10.0.0.5:443`. -/
def exConn : Conn :=
  { RemoteAddr := { Network := "udp", String := "198.51.100.7:40000" }
    LocalAddr := { Network := "udp", String := "10.0.0.5:443" } }

/-- A connection from the rate-limited host. -/
def exDeniedConn : Conn :=
  { RemoteAddr := { Network := "udp", String := "203.0.113.9:51000" }
    LocalAddr := { Network := "udp", String := "10.0.0.5:443" } }

/-- The context of the worked examples. -/
def exCtx : Context :=
  { Sid := "sid-1" }

end Redirect

namespace Http2

/-- A Go channel: the buffered values oldest first, the capacity given to `make`, and whether
`close` has been called. -/
structure Chan (α : Type) where
  buf : List α
  cap : Nat
  closed : Bool
deriving DecidableEq, Repr

/-- The channel returned by `make(chan α, cap)`. -/
def Chan.make (α : Type) (cap : Nat) : Chan α :=
  { buf := [], cap := cap, closed := false }

/-- A receive can proceed when a value is buffered or the channel is closed. -/
def Chan.recvReady {α : Type} (ch : Chan α) : Bool :=
  !ch.buf.isEmpty || ch.closed

/-- A receive that can proceed: the oldest buffered value with `ok = true` (`some v`), or on
a closed and drained channel the zero value with `ok = false` (`none`). -/
def Chan.recv {α : Type} (ch : Chan α) : Option α × Chan α :=
  match ch.buf with
  | v :: rest => (some v, { ch with buf := rest })
  | [] => (none, ch)

/-- The three ways a send can go. -/
inductive SendResult (α : Type) where
  | sent (ch : Chan α)
  | blocks
  | panics
deriving DecidableEq, Repr

/-- A send: panics on a closed channel, proceeds while the buffer has room, blocks
otherwise. -/
def Chan.send {α : Type} (ch : Chan α) (v : α) : SendResult α :=
  if ch.closed then SendResult.panics
  else if ch.buf.length < ch.cap then SendResult.sent { ch with buf := ch.buf ++ [v] }
  else SendResult.blocks

/-- The builtin `close`: `none` is the panic of closing a closed channel. -/
def Chan.close {α : Type} (ch : Chan α) : Option (Chan α) :=
  if ch.closed then none else some { ch with closed := true }

/-- An inbound `*http.Request` with its `http.ResponseWriter`: the declared peer and the
identity of the exchange. -/
structure Request where
  RemoteAddr : String
  id : Nat
deriving DecidableEq, Repr

/-- The synthetic connection built by `handleFunc`: `laddr`, `raddr` (nil when the peer does
not resolve) and the exchange kept in its metadata. -/
structure conn where
  laddr : String
  raddr : Option String
  md : Request
deriving DecidableEq, Repr

/-- The decorators applied by `Init`. -/
inductive Layer where
  | metrics
  | admission
  | limiter
  | proxyproto
  | tls
deriving DecidableEq, Repr

/-- A `net.Listener` value: the raw socket listener or a decorator holding the listener it
was given. -/
inductive Ln where
  | raw (network addr : String)
  | wrap (layer : Layer) (inner : Ln)
deriving DecidableEq, Repr

/-- The `listener.Options` fields read by `Init`.  `Metrics`, `Admission`, `RateLimiter` and
`ProxyProtocol` say whether the capability is set. -/
structure Options where
  Addr : String
  Service : String
  Metrics : Bool
  Admission : Bool
  RateLimiter : Bool
  ProxyProtocol : Bool
deriving DecidableEq, Repr

/-- Modelled from the spec: the `WrapListener` functions of the metrics, admission, limiter
and proxyproto packages are not part of the two files; by section 4.1 each wrap returns a
decorator around the listener it is given, and is a pass-through when its capability is
unset. -/
def WrapListener (layer : Layer) (enabled : Bool) (ln : Ln) : Ln :=
  if enabled then Ln.wrap layer ln else ln

/-- The standard library's tls.NewListener, which always wraps. -/
def NewListener (ln : Ln) : Ln :=
  Ln.wrap Layer.tls ln

/-- The `*http.Server` as far as the listener uses it: the listener passed to `Serve`, and
whether `Close` was called on it. -/
structure Server where
  Addr : String
  serving : Option Ln
  inShutdown : Bool
deriving DecidableEq, Repr

/-- The parsed metadata. -/
structure metadata where
  backlog : Nat
deriving DecidableEq, Repr

/-- The `http2Listener` struct. -/
structure http2Listener where
  server : Server
  addr : String
  cqueue : Chan conn
  errChan : Chan (Option GoError)
  md : metadata
  options : Options
deriving DecidableEq, Repr

/-- What the listener uses from outside the two files: the results of `parseMetadata`,
`http2.ConfigureServer`, `xnet.IsIPv4`, `net.Listen` (the bound address) and
`net.ResolveTCPAddr`, the value returned by `server.Close()`, and the sentinel
`listener.ErrClosed`. -/
structure World where
  parseMetadata : Except GoError metadata
  ConfigureServer : Option GoError
  IsIPv4 : String → Bool
  Listen : String → String → Except GoError String
  ResolveTCPAddr : String → Option String
  serverClose : Option GoError
  ErrClosed : GoError

/-- The decoration of the raw listener in `Init`, lines 70 to 78, in program order. -/
def wrapChain (o : Options) (ln : Ln) : Ln :=
  let ln := WrapListener Layer.metrics o.Metrics ln
  let ln := WrapListener Layer.admission o.Admission ln
  let ln := WrapListener Layer.limiter o.RateLimiter ln
  let ln := WrapListener Layer.proxyproto o.ProxyProtocol ln
  NewListener ln

/-- The method `http2Listener.Init`: the error it returns, or the initialized listener. -/
def Init (w : World) (o : Options) : Except GoError http2Listener :=
  match w.parseMetadata with
  | Except.error e => Except.error e
  | Except.ok md =>
    match w.ConfigureServer with
    | some e => Except.error e
    | none =>
      let network := if w.IsIPv4 o.Addr then "tcp4" else "tcp"
      match w.Listen network o.Addr with
      | Except.error e => Except.error e
      | Except.ok addr =>
        let ln := wrapChain o (Ln.raw network o.Addr)
        Except.ok
          { server := { Addr := o.Addr, serving := some ln, inShutdown := false }
            addr := addr
            cqueue := Chan.make conn md.backlog
            errChan := Chan.make (Option GoError) 1
            md := md
            options := o }

/-- The result of one `Accept` call: the returned pair, or the call stays blocked in its
`select`. -/
inductive AcceptResult where
  | returned (c : Option conn) (err : Option GoError)
  | blocked
deriving DecidableEq, Repr

/-- The method `http2Listener.Accept`.  When both cases of the `select` can proceed, Go picks one at
random: `pickErr` is that pick (`true` for the `errChan` case). -/
def Accept (w : World) (l : http2Listener) (pickErr : Bool) : AcceptResult × http2Listener :=
  let qReady := l.cqueue.recvReady
  let eReady := l.errChan.recvReady
  if qReady && !(eReady && pickErr) then
    let r := l.cqueue.recv
    (AcceptResult.returned r.1 none, { l with cqueue := r.2 })
  else if eReady then
    let r := l.errChan.recv
    match r.1 with
    | some err => (AcceptResult.returned none err, { l with errChan := r.2 })
    | none => (AcceptResult.returned none (some w.ErrClosed), { l with errChan := r.2 })
  else (AcceptResult.blocked, l)

/-- The result of one `Close` call. -/
inductive CloseResult where
  | returned (err : Option GoError)
  | blocked
  | panicked
deriving DecidableEq, Repr

/-- The effects of `Close` on the server and on the error channel. -/
inductive CloseEvent where
  | serverClose
  | errSend (err : Option GoError)
  | errClose
deriving DecidableEq, Repr

/-- The method `http2Listener.Close`: a `select` with a receive from `errChan` and a `default`
branch. -/
def Close (w : World) (l : http2Listener) : CloseResult × List CloseEvent × http2Listener :=
  if l.errChan.recvReady then
    (CloseResult.returned none, [], { l with errChan := l.errChan.recv.2 })
  else
    let err := w.serverClose
    let l := { l with server := { l.server with inShutdown := true } }
    match l.errChan.send err with
    | SendResult.sent ch =>
      match ch.close with
      | some ch2 =>
        (CloseResult.returned none,
          [CloseEvent.serverClose, CloseEvent.errSend err, CloseEvent.errClose],
          { l with errChan := ch2 })
      | none =>
        (CloseResult.panicked, [CloseEvent.serverClose, CloseEvent.errSend err],
          { l with errChan := ch })
    | SendResult.blocks => (CloseResult.blocked, [CloseEvent.serverClose], l)
    | SendResult.panics => (CloseResult.panicked, [CloseEvent.serverClose], l)

/-- The result of one `handleFunc` call: the connection was enqueued and the call waits on
`conn.Done()`, or the queue was full and the call logged the discarded client and returned,
or the send panicked. -/
inductive HandleResult where
  | awaitsDone (c : conn)
  | discarded (client : String)
  | panicked
deriving DecidableEq, Repr

/-- The method `http2Listener.handleFunc`: a `select` with a send to `cqueue` and a `default`
branch. -/
def handleFunc (w : World) (l : http2Listener) (r : Request) : HandleResult × http2Listener :=
  let c : conn := { laddr := l.addr, raddr := w.ResolveTCPAddr r.RemoteAddr, md := r }
  match l.cqueue.send c with
  | SendResult.sent q => (HandleResult.awaitsDone c, { l with cqueue := q })
  | SendResult.blocks => (HandleResult.discarded r.RemoteAddr, l)
  | SendResult.panics => (HandleResult.panicked, l)

/-- One call on the listener. -/
inductive Op where
  | handle (r : Request)
  | accept (pickErr : Bool)
  | close
deriving DecidableEq, Repr

/-- The listener after one call. -/
def step (w : World) (l : http2Listener) : Op → http2Listener
  | Op.handle r => (handleFunc w l r).2
  | Op.accept pickErr => (Accept w l pickErr).2
  | Op.close => (Close w l).2.2

/-- The listener after a sequence of calls. -/
def run (w : World) (l : http2Listener) : List Op → http2Listener
  | [] => l
  | op :: ops => run w (step w l op) ops

/-- The listener states that occur: those reached from a successful `Init` by any sequence
of `handleFunc`, `Accept` and `Close` calls. -/
def Reachable (w : World) (l : http2Listener) : Prop :=
  ∃ o l0 ops, Init w o = Except.ok l0 ∧ run w l0 ops = l

/-- Feed the exchanges to `handleFunc` one after the other: the results and the listener
afterwards. -/
def handleAll (w : World) (l : http2Listener) : List Request → List HandleResult × http2Listener
  | [] => ([], l)
  | r :: rs =>
    let h := handleFunc w l r
    let t := handleAll w h.2 rs
    (h.1 :: t.1, t.2)

/-- Call `Accept` once per pick: the results and the listener afterwards. -/
def acceptAll (w : World) (l : http2Listener) : List Bool → List AcceptResult × http2Listener
  | [] => ([], l)
  | p :: ps =>
    let a := Accept w l p
    let t := acceptAll w a.2 ps
    (a.1 :: t.1, t.2)

/-- Call `Close` `n` times in a row: the results, the effects in order, and the listener
afterwards. -/
def closeN (w : World) (l : http2Listener) :
    Nat → List CloseResult × List CloseEvent × http2Listener
  | 0 => ([], [], l)
  | n + 1 =>
    let c := Close w l
    let t := closeN w c.2.2 n
    (c.1 :: t.1, c.2.1 ++ t.2.1, t.2.2)

/-- The connection `handleFunc` builds for an exchange. -/
def connOf (w : World) (l : http2Listener) (r : Request) : conn :=
  { laddr := l.addr, raddr := w.ResolveTCPAddr r.RemoteAddr, md := r }

/-- The layers of a listener value, outermost first: the order in which their `Accept`
methods are entered, each calling the next. -/
def Ln.layers : Ln → List Layer
  | Ln.raw _ _ => []
  | Ln.wrap x inner => x :: inner.layers

/-- The decorator `a` wraps outside the decorator `b`: `b` is within the listener that `a`
holds. -/
def Ln.wrapsOutside (a b : Layer) : Ln → Bool
  | Ln.raw _ _ => false
  | Ln.wrap x inner => (x == a && decide (b ∈ inner.layers)) || inner.wrapsOutside a b

/-- The layers an accepted connection has already passed through when it reaches layer
`x`, innermost first: those of the listener that `x` holds.  A decorator's `Accept` calls
the inner `Accept` first and acts on the connection that comes back. -/
def Ln.passedBefore (x : Layer) : Ln → List Layer
  | Ln.raw _ _ => []
  | Ln.wrap y inner => if y = x then inner.layers.reverse else inner.passedBefore x

/-- The layer whose `Accept` calls the `Accept` of layer `x`, when there is one. -/
def Ln.callerOf (x : Layer) : Ln → Option Layer
  | Ln.raw _ _ => none
  | Ln.wrap y inner =>
    match inner with
    | Ln.raw _ _ => none
    | Ln.wrap z _ => if z = x then some y else inner.callerOf x

/-- The options with every capability set. -/
def allSet : Options :=
  { Addr := ":8443", Service := "svc", Metrics := true, Admission := true,
    RateLimiter := true, ProxyProtocol := true }

/-- The shape of the two channels in every listener state that occurs: the queue is open
and within its capacity, which is the backlog; the error channel has capacity 1, holds
nothing while it is open and at most one value once it is closed. -/
def Inv (l : http2Listener) : Prop :=
  l.cqueue.buf.length ≤ l.cqueue.cap ∧ l.cqueue.cap = l.md.backlog ∧
  l.cqueue.closed = false ∧ l.errChan.cap = 1 ∧
  (l.errChan.closed = false → l.errChan.buf = []) ∧ l.errChan.buf.length ≤ 1

instance (l : http2Listener) : Decidable (Inv l) := by
  unfold Inv
  infer_instance

/-- The collaborators used in the worked examples: a backlog of `backlog`, a server whose
`Close` returns nil. -/
def exWorld (backlog : Nat) : World :=
  { parseMetadata := Except.ok { backlog := backlog }
    ConfigureServer := none
    IsIPv4 := fun _ => false
    Listen := fun _ a => Except.ok a
    ResolveTCPAddr := fun s => some s
    serverClose := none
    ErrClosed := { Error := "listener closed" } }

/-- The listener that `Init` returns in the worked examples. -/
def exListener (backlog : Nat) : http2Listener :=
  { server :=
      { Addr := ":8443"
        serving := some (Ln.wrap Layer.tls (Ln.wrap Layer.proxyproto (Ln.wrap Layer.limiter
          (Ln.wrap Layer.admission (Ln.wrap Layer.metrics (Ln.raw "tcp" ":8443"))))))
        inShutdown := false }
    addr := ":8443"
    cqueue := { buf := [], cap := backlog, closed := false }
    errChan := { buf := [], cap := 1, closed := false }
    md := { backlog := backlog }
    options := allSet }

/-- The `i`-th exchange of the worked examples. -/
def exRequest (i : Nat) : Request :=
  { RemoteAddr := "192.0.2.1:5000", id := i }

end Http2

/-! ## The redirect handler -/

namespace Redirect

theorem dials_append (xs ys : List Event) : dials (xs ++ ys) = dials xs ++ dials ys := by
  induction xs with
  | nil => rfl
  | cons x xs ih => cases x <;> simp [dials, ih]

theorem records_append (xs ys : List Event) :
    records (xs ++ ys) = records xs ++ records ys := by
  induction xs with
  | nil => rfl
  | cons x xs ih => cases x <;> simp [records, ih]

theorem dials_checkRateLimit (h : redirectHandler) (w : World) (addr : Addr) :
    dials (checkRateLimit h w addr).2 = [] := by
  unfold checkRateLimit
  cases h.options.RateLimiter with
  | none => rfl
  | some rl =>
    simp only []
    cases rl.Limiter (w.SplitHostPort addr.String) <;> rfl

theorem records_checkRateLimit (h : redirectHandler) (w : World) (addr : Addr) :
    records (checkRateLimit h w addr).2 = [] := by
  unfold checkRateLimit
  cases h.options.RateLimiter with
  | none => rfl
  | some rl =>
    simp only []
    cases rl.Limiter (w.SplitHostPort addr.String) <;> rfl

/-- The body flushes nothing itself, never moves the clock back, and leaves `Time` and `Err`
of the recorder object as they were. -/
theorem HandleBody_spec (h : redirectHandler) (w : World) (conn : Conn) (start : Nat)
    (ro : HandlerRecorderObject) :
    records (HandleBody h w conn start ro).events = [] ∧
    start ≤ (HandleBody h w conn start ro).now ∧
    (HandleBody h w conn start ro).ro.Time = ro.Time ∧
    (HandleBody h w conn start ro).ro.Err = ro.Err := by
  have hnow : start ≤ (if h.options.RateLimiter.isSome then start + w.allowTicks else start) := by
    split <;> omega
  have hrl := records_checkRateLimit h w conn.RemoteAddr
  unfold HandleBody
  simp only []
  split
  · exact ⟨hrl, hnow, rfl, rfl⟩
  · split
    · split
      · refine ⟨?_, ?_, rfl, rfl⟩
        · simp [records_append, hrl, records]
        · dsimp only
          omega
      · split
        · refine ⟨?_, ?_, rfl, rfl⟩
          · simp [records_append, hrl, records]
          · dsimp only
            omega
        · refine ⟨?_, ?_, rfl, rfl⟩
          · simp [records_append, hrl, records]
          · dsimp only
            omega
    · split
      · refine ⟨?_, ?_, rfl, rfl⟩
        · simp [records_append, hrl, records]
        · dsimp only
          omega
      · refine ⟨?_, ?_, rfl, rfl⟩
        · simp [records_append, hrl, records]
        · dsimp only
          omega

theorem records_deferredUpstreamClose (cc : Option UpConn) :
    records (deferredUpstreamClose cc) = [] := by
  cases cc <;> rfl

/-- C1: when a rate limiter is configured, a limiter is registered for the peer's host and
its `Allow(1)` is false, `Handle` returns `ErrRateLimit`, `Router.Dial` is not called, and
the one flushed recorder object carries the rate-limit error's message, which is non-empty
as soon as that sentinel's message is. -/
theorem Handle_rate_limit_denied (h : redirectHandler) (w : World) (ctx : Context)
    (conn : Conn) (start : Nat) (rl : RateLimiter) (lim : Limiter)
    (hrl : h.options.RateLimiter = some rl)
    (hlim : rl.Limiter (w.SplitHostPort conn.RemoteAddr.String) = some lim)
    (hdeny : lim.Allow 1 = false)
    (hmsg : w.ErrRateLimit.Error ≠ "") :
    (Handle h w ctx conn start).err = some w.ErrRateLimit ∧
    dials (Handle h w ctx conn start).trace = [] ∧
    ∃ ro now, records (Handle h w ctx conn start).trace = [(ro, now)] ∧
      ro.Err = w.ErrRateLimit.Error ∧ ro.Err ≠ "" := by
  simp [Handle, HandleBody, checkRateLimit, hrl, hlim, hdeny, dials, records, deferredRecord,
    hmsg]

/-- Witness for C1: host `203.0.113.9` is denied. -/
theorem Handle_rate_limit_denied_witness :
    exRateLimiter.Limiter (exWorld.SplitHostPort exDeniedConn.RemoteAddr.String)
      = some exDeny ∧
    exDeny.Allow 1 = false ∧
    (Handle exLimited exWorld exCtx exDeniedConn 100).err = some exWorld.ErrRateLimit ∧
    dials (Handle exLimited exWorld exCtx exDeniedConn 100).trace = [] ∧
    ∃ ro now, records (Handle exLimited exWorld exCtx exDeniedConn 100).trace = [(ro, now)] ∧
      ro.Err = exWorld.ErrRateLimit.Error ∧ ro.Err ≠ "" :=
  ⟨rfl, rfl, Handle_rate_limit_denied exLimited exWorld exCtx exDeniedConn 100
    exRateLimiter exDeny rfl rfl rfl (by decide)⟩

/-- C2: when the rate-limit check passes and a configured bypass policy contains the local
address's network and string, `Handle` returns `ErrBypass` and `Router.Dial` is not
called. -/
theorem Handle_bypass_denied (h : redirectHandler) (w : World) (ctx : Context)
    (conn : Conn) (start : Nat) (bp : Bypass)
    (hpass : (checkRateLimit h w conn.RemoteAddr).1 = true)
    (hbp : h.options.Bypass = some bp)
    (hhit : bp.Contains conn.LocalAddr.Network conn.LocalAddr.String = true) :
    (Handle h w ctx conn start).err = some w.ErrBypass ∧
    dials (Handle h w ctx conn start).trace = [] := by
  simp [Handle, HandleBody, hpass, hbp, hhit, dials_append, dials_checkRateLimit, dials]

/-- Witness for C2: local address `10.0.0.5:443` is on the bypass list. -/
theorem Handle_bypass_denied_witness :
    (checkRateLimit exBypassed exWorld exConn.RemoteAddr).1 = true ∧
    (Handle exBypassed exWorld exCtx exConn 100).err = some exWorld.ErrBypass ∧
    dials (Handle exBypassed exWorld exCtx exConn 100).trace = [] :=
  ⟨rfl, Handle_bypass_denied exBypassed exWorld exCtx exConn 100
    { Contains := fun _ a => decide (a = "10.0.0.5:443") } rfl rfl (by decide)⟩

/-- C3: on every exit path `Handle` flushes the recorder object exactly once; the flushed
object has `Duration` equal to the clock reading at the flush minus the reading at entry
(which is its `Time`), and `Err` equal to the returned error's message, or empty when
`Handle` returns nil. -/
theorem Handle_flushes_once (h : redirectHandler) (w : World) (ctx : Context)
    (conn : Conn) (start : Nat) :
    ∃ ro now, records (Handle h w ctx conn start).trace = [(ro, now)] ∧
      start ≤ now ∧ ro.Time = start ∧ ro.Duration = now - start ∧
      ro.Err = errText (Handle h w ctx conn start).err := by
  obtain ⟨hrec, hnow, htime, herr⟩ :=
    HandleBody_spec h w conn start (entryRecord h w ctx conn start)
  let b := HandleBody h w conn start (entryRecord h w ctx conn start)
  refine ⟨deferredRecord b.err b.ro start b.now, b.now, ?_, hnow, ?_, ?_, ?_⟩
  · simp only [Handle, records_append, hrec, records_deferredUpstreamClose, records,
      List.nil_append, b]
  · show (deferredRecord b.err b.ro start b.now).Time = start
    unfold deferredRecord
    cases b.err <;> exact htime
  · rfl
  · show (deferredRecord b.err b.ro start b.now).Err = errText b.err
    unfold deferredRecord
    cases b.err with
    | none => exact herr
    | some e => rfl

/-- C4: when the rate-limit check passes and no configured bypass policy contains the local
address, `Handle` calls `Router.Dial` exactly once, with the network and string of the local
address, and the flushed recorder object has that network and address as `Network` and
`Host`; when the dial succeeds `Handle` returns nil and the flushed `Err` is empty. -/
theorem Handle_dials_local_addr (h : redirectHandler) (w : World) (ctx : Context)
    (conn : Conn) (start : Nat)
    (hpass : (checkRateLimit h w conn.RemoteAddr).1 = true)
    (hmiss : ∀ bp, h.options.Bypass = some bp →
      bp.Contains conn.LocalAddr.Network conn.LocalAddr.String = false) :
    dials (Handle h w ctx conn start).trace
      = [(conn.LocalAddr.Network, conn.LocalAddr.String)] ∧
    ∃ ro now, records (Handle h w ctx conn start).trace = [(ro, now)] ∧
      ro.Network = conn.LocalAddr.Network ∧ ro.Host = conn.LocalAddr.String ∧
      ∀ cc, h.options.Router.Dial conn.LocalAddr.Network conn.LocalAddr.String
          = Except.ok cc →
        (Handle h w ctx conn start).err = none ∧ ro.Err = "" := by
  have hd := dials_checkRateLimit h w conn.RemoteAddr
  have hr := records_checkRateLimit h w conn.RemoteAddr
  cases hb : h.options.Bypass with
  | none =>
    cases hdial : h.options.Router.Dial conn.LocalAddr.Network conn.LocalAddr.String with
    | error e =>
      simp [Handle, HandleBody, hpass, hb, hdial, dials_append, records_append, hd, hr, dials,
        records, deferredRecord, deferredUpstreamClose, entryRecord]
    | ok cc =>
      simp [Handle, HandleBody, hpass, hb, hdial, dials_append, records_append, hd, hr, dials,
        records, deferredRecord, deferredUpstreamClose, entryRecord]
  | some bp =>
    have hm := hmiss bp hb
    cases hdial : h.options.Router.Dial conn.LocalAddr.Network conn.LocalAddr.String with
    | error e =>
      simp [Handle, HandleBody, hpass, hb, hm, hdial, dials_append, records_append, hd, hr,
        dials, records, deferredRecord, deferredUpstreamClose, entryRecord]
    | ok cc =>
      simp [Handle, HandleBody, hpass, hb, hm, hdial, dials_append, records_append, hd, hr,
        dials, records, deferredRecord, deferredUpstreamClose, entryRecord]

/-- Witness for C4: local address `10.0.0.5:443`, no bypass policy and no rate limiter, a dial
that succeeds: the dial goes to `10.0.0.5:443`, which is also the recorded `Host`, and the
recorded `Err` is empty. -/
theorem Handle_dials_local_addr_witness :
    (checkRateLimit exPlain exWorld exConn.RemoteAddr).1 = true ∧
    dials (Handle exPlain exWorld exCtx exConn 100).trace = [("udp", "10.0.0.5:443")] ∧
    ∃ ro now, records (Handle exPlain exWorld exCtx exConn 100).trace = [(ro, now)] ∧
      ro.Network = "udp" ∧ ro.Host = "10.0.0.5:443" ∧
      ∀ cc, exPlain.options.Router.Dial "udp" "10.0.0.5:443" = Except.ok cc →
        (Handle exPlain exWorld exCtx exConn 100).err = none ∧ ro.Err = "" :=
  ⟨rfl, Handle_dials_local_addr exPlain exWorld exCtx exConn 100 rfl
    (fun _ hbp => nomatch hbp)⟩

/-- C10, as stated, fails: the dial succeeds and `netpkg.Transport` ends with an I/O error,
yet `Handle` returns nil and the flushed recorder object has an empty `Err`. -/
theorem Handle_transport_failure_counterexample :
    exPlain.options.Router.Dial exConn.LocalAddr.Network exConn.LocalAddr.String
      = Except.ok { id := 7 } ∧
    exWorld.Transport exConn { id := 7 }
      = some { Error := "read: connection reset by peer" } ∧
    (Handle exPlain exWorld exCtx exConn 100).err = none ∧
    (records (Handle exPlain exWorld exCtx exConn 100).trace).map (fun r => r.1.Err)
      = [""] := by
  refine ⟨rfl, rfl, rfl, rfl⟩

/-- C10, amended: when the checks pass and the dial succeeds, `Handle` runs the transport,
discards its result, returns nil and flushes a recorder object with an empty `Err`,
whatever the transport returned. -/
theorem Handle_transport_result_discarded (h : redirectHandler) (w : World) (ctx : Context)
    (conn : Conn) (start : Nat) (cc : UpConn)
    (hpass : (checkRateLimit h w conn.RemoteAddr).1 = true)
    (hmiss : ∀ bp, h.options.Bypass = some bp →
      bp.Contains conn.LocalAddr.Network conn.LocalAddr.String = false)
    (hdial : h.options.Router.Dial conn.LocalAddr.Network conn.LocalAddr.String
      = Except.ok cc) :
    Event.transport cc (w.Transport conn cc) ∈ (Handle h w ctx conn start).trace ∧
    (Handle h w ctx conn start).err = none ∧
    ∃ ro now, records (Handle h w ctx conn start).trace = [(ro, now)] ∧ ro.Err = "" := by
  have hr := records_checkRateLimit h w conn.RemoteAddr
  cases hb : h.options.Bypass with
  | none =>
    simp [Handle, HandleBody, hpass, hb, hdial, records_append, hr,
      records, deferredRecord, deferredUpstreamClose, entryRecord]
  | some bp =>
    have hm := hmiss bp hb
    simp [Handle, HandleBody, hpass, hb, hm, hdial, records_append, hr,
      records, deferredRecord, deferredUpstreamClose, entryRecord]

/-- Witness for C10 amended: the transport ends with an I/O error and `Handle` returns
nil. -/
theorem Handle_transport_result_discarded_witness :
    exWorld.Transport exConn { id := 7 }
      = some { Error := "read: connection reset by peer" } ∧
    Event.transport { id := 7 } (exWorld.Transport exConn { id := 7 })
      ∈ (Handle exPlain exWorld exCtx exConn 100).trace ∧
    (Handle exPlain exWorld exCtx exConn 100).err = none ∧
    ∃ ro now, records (Handle exPlain exWorld exCtx exConn 100).trace = [(ro, now)] ∧
      ro.Err = "" :=
  ⟨rfl, Handle_transport_result_discarded exPlain exWorld exCtx exConn 100 { id := 7 } rfl
    (fun _ hbp => nomatch hbp) rfl⟩

end Redirect

/-! ## The HTTP/2 listener -/

namespace Http2

theorem Init_spec (w : World) (o : Options) (l : http2Listener) (h : Init w o = Except.ok l) :
    Inv l ∧ l.cqueue.buf = [] ∧ l.errChan.closed = false ∧ l.errChan.buf = [] ∧
    l.server.serving = some (wrapChain o (Ln.raw (if w.IsIPv4 o.Addr then "tcp4" else "tcp")
      o.Addr)) ∧ l.options = o := by
  unfold Init at h
  cases hp : w.parseMetadata with
  | error e => simp [hp] at h
  | ok md =>
    cases hc : w.ConfigureServer with
    | some e => simp [hp, hc] at h
    | none =>
      cases hl : w.Listen (if w.IsIPv4 o.Addr then "tcp4" else "tcp") o.Addr with
      | error e => simp [hp, hc, hl] at h
      | ok addr =>
        simp only [hp, hc, hl, Except.ok.injEq] at h
        subst h
        simp [Inv, Chan.make]

theorem handleFunc_eq (w : World) (l : http2Listener) (r : Request) :
    handleFunc w l r =
      if l.cqueue.closed then (HandleResult.panicked, l)
      else if l.cqueue.buf.length < l.cqueue.cap then
        (HandleResult.awaitsDone (connOf w l r),
          { l with cqueue := { l.cqueue with buf := l.cqueue.buf ++ [connOf w l r] } })
      else (HandleResult.discarded r.RemoteAddr, l) := by
  unfold handleFunc Chan.send connOf
  by_cases hc : l.cqueue.closed = true
  · simp [hc]
  · by_cases hlt : l.cqueue.buf.length < l.cqueue.cap
    · simp [hc, hlt]
    · simp [hc, hlt]

theorem handleFunc_inv (w : World) (l : http2Listener) (r : Request) (h : Inv l) :
    Inv (handleFunc w l r).2 := by
  obtain ⟨h1, h2, h3, h4, h5, h6⟩ := h
  rw [handleFunc_eq]
  simp only [h3, Bool.false_eq_true, if_false]
  by_cases hlt : l.cqueue.buf.length < l.cqueue.cap
  · simp only [hlt, if_true]
    unfold Inv
    dsimp only
    refine ⟨?_, h2, rfl, h4, h5, h6⟩
    simp only [List.length_append, List.length_singleton]
    omega
  · simp only [hlt, if_false]
    exact ⟨h1, h2, h3, h4, h5, h6⟩

theorem recv_spec {α : Type} (ch : Chan α) :
    ch.recv.2.buf.length ≤ ch.buf.length ∧ ch.recv.2.cap = ch.cap ∧
    ch.recv.2.closed = ch.closed ∧ (ch.buf = [] → ch.recv.2.buf = []) ∧
    (ch.buf.length ≤ 1 → ch.recv.2.buf = []) := by
  unfold Chan.recv
  cases hb : ch.buf with
  | nil => simp [hb]
  | cons v rest =>
    dsimp only
    refine ⟨by simp, rfl, rfl, by simp, ?_⟩
    intro hlen
    simp only [List.length_cons] at hlen
    exact List.length_eq_zero.mp (by omega)

theorem Inv_recv_errChan (l : http2Listener) (h : Inv l) :
    Inv { l with errChan := l.errChan.recv.2 } := by
  obtain ⟨h1, h2, h3, h4, h5, h6⟩ := h
  obtain ⟨e1, e2, e3, e4, -⟩ := recv_spec l.errChan
  unfold Inv
  dsimp only
  exact ⟨h1, h2, h3, by rw [e2]; exact h4, fun hc => e4 (h5 (by rw [← e3]; exact hc)),
    by omega⟩

theorem Inv_recv_cqueue (l : http2Listener) (h : Inv l) :
    Inv { l with cqueue := l.cqueue.recv.2 } := by
  obtain ⟨h1, h2, h3, h4, h5, h6⟩ := h
  obtain ⟨q1, q2, q3, -, -⟩ := recv_spec l.cqueue
  unfold Inv
  dsimp only
  exact ⟨by rw [q2]; omega, by rw [q2]; exact h2, by rw [q3]; exact h3, h4, h5, h6⟩

theorem Accept_inv (w : World) (l : http2Listener) (p : Bool) (h : Inv l) :
    Inv (Accept w l p).2 := by
  unfold Accept
  dsimp only
  split
  · exact Inv_recv_cqueue l h
  · split
    · split <;> exact Inv_recv_errChan l h
    · exact h

theorem Close_open (w : World) (l : http2Listener) (h : Inv l)
    (hopen : l.errChan.closed = false) :
    Close w l = (CloseResult.returned none,
      [CloseEvent.serverClose, CloseEvent.errSend w.serverClose, CloseEvent.errClose],
      { l with
        server := { l.server with inShutdown := true }
        errChan := { buf := [w.serverClose], cap := 1, closed := true } }) := by
  obtain ⟨h1, h2, h3, h4, h5, h6⟩ := h
  have hbuf := h5 hopen
  simp [Close, Chan.recvReady, Chan.send, Chan.close, hopen, hbuf, h4]

theorem Close_closed (w : World) (l : http2Listener) (hc : l.errChan.closed = true) :
    Close w l = (CloseResult.returned none, [], { l with errChan := l.errChan.recv.2 }) := by
  simp [Close, Chan.recvReady, hc]

theorem Close_inv (w : World) (l : http2Listener) (h : Inv l) : Inv (Close w l).2.2 := by
  cases hc : l.errChan.closed with
  | true =>
    rw [Close_closed w l hc]
    exact Inv_recv_errChan l h
  | false =>
    rw [Close_open w l h hc]
    obtain ⟨h1, h2, h3, h4, h5, h6⟩ := h
    unfold Inv
    dsimp only
    exact ⟨h1, h2, h3, rfl, by simp, by simp⟩

theorem step_inv (w : World) (l : http2Listener) (op : Op) (h : Inv l) : Inv (step w l op) := by
  cases op with
  | handle r => exact handleFunc_inv w l r h
  | accept p => exact Accept_inv w l p h
  | close => exact Close_inv w l h

theorem run_inv (w : World) (ops : List Op) (l : http2Listener) (h : Inv l) :
    Inv (run w l ops) := by
  induction ops generalizing l with
  | nil => exact h
  | cons op ops ih => exact ih _ (step_inv w l op h)

theorem Reachable_inv (w : World) (l : http2Listener) (h : Reachable w l) : Inv l := by
  obtain ⟨o, l0, ops, hinit, hrun⟩ := h
  subst hrun
  exact run_inv w ops l0 (Init_spec w o l0 hinit).1

theorem step_backlog (w : World) (l : http2Listener) (op : Op) :
    (step w l op).md = l.md := by
  cases op with
  | handle r =>
    simp only [step, handleFunc]
    split <;> rfl
  | accept p =>
    simp only [step, Accept]
    split
    · rfl
    · split
      · split <;> rfl
      · rfl
  | close =>
    simp only [step, Close]
    split
    · rfl
    · split
      · split <;> rfl
      · rfl
      · rfl

theorem run_backlog (w : World) (ops : List Op) (l : http2Listener) :
    (run w l ops).md = l.md := by
  induction ops generalizing l with
  | nil => rfl
  | cons op ops ih => rw [run, ih, step_backlog]

theorem handleAll_spec (w : World) (rs : List Request) (l : http2Listener)
    (hcl : l.cqueue.closed = false) :
    handleAll w l rs =
      ((rs.take (l.cqueue.cap - l.cqueue.buf.length)).map
          (fun r => HandleResult.awaitsDone (connOf w l r)) ++
        (rs.drop (l.cqueue.cap - l.cqueue.buf.length)).map
          (fun r => HandleResult.discarded r.RemoteAddr),
        { l with cqueue := { l.cqueue with
            buf := l.cqueue.buf ++
              (rs.take (l.cqueue.cap - l.cqueue.buf.length)).map (connOf w l) } }) := by
  induction rs generalizing l with
  | nil => simp [handleAll]
  | cons r rs ih =>
    obtain ⟨server, addr, ⟨qb, qc, qcl⟩, errChan, md, o⟩ := l
    dsimp only at hcl
    subst hcl
    unfold handleAll
    dsimp only
    rw [handleFunc_eq]
    dsimp only
    simp only [Bool.false_eq_true, if_false]
    by_cases hlt : qb.length < qc
    · simp only [hlt, if_true]
      rw [ih _ rfl]
      obtain ⟨k, hk⟩ : ∃ k, qc - qb.length = k + 1 := ⟨qc - qb.length - 1, by omega⟩
      have hk2 : qc - (qb ++ [connOf w
          { server := server, addr := addr, cqueue := { buf := qb, cap := qc, closed := false },
            errChan := errChan, md := md, options := o } r]).length = k := by
        simp only [List.length_append, List.length_singleton]
        omega
      dsimp only
      rw [hk, hk2]
      simp [connOf]
      rfl
    · simp only [hlt, if_false]
      rw [ih _ rfl]
      have hk : qc - qb.length = 0 := by omega
      dsimp only
      rw [hk]
      simp

theorem Accept_open (w : World) (l : http2Listener) (p : Bool)
    (hopen : l.errChan.closed = false) (hbuf : l.errChan.buf = [])
    (hq : l.cqueue.closed = false) :
    Accept w l p =
      match l.cqueue.buf with
      | c :: rest =>
        (AcceptResult.returned (some c) none, { l with cqueue := { l.cqueue with buf := rest } })
      | [] => (AcceptResult.blocked, l) := by
  unfold Accept Chan.recvReady Chan.recv
  cases hb : l.cqueue.buf with
  | nil => simp [hopen, hbuf, hq]
  | cons c rest => simp [hopen, hbuf]

theorem acceptAll_open (w : World) (cs : List conn) (l : http2Listener) (picks : List Bool)
    (hopen : l.errChan.closed = false) (hbuf : l.errChan.buf = [])
    (hq : l.cqueue.closed = false) (hcs : l.cqueue.buf = cs)
    (hlen : picks.length = cs.length) :
    acceptAll w l picks =
      (cs.map (fun c => AcceptResult.returned (some c) none),
        { l with cqueue := { l.cqueue with buf := [] } }) := by
  induction cs generalizing l picks with
  | nil =>
    have hp : picks = [] := List.length_eq_zero.mp hlen
    subst hp
    obtain ⟨server, addr, ⟨qb, qc, qcl⟩, errChan, md, o⟩ := l
    dsimp only at hcs
    subst hcs
    rfl
  | cons c cs ih =>
    cases picks with
    | nil => simp at hlen
    | cons p ps =>
      obtain ⟨server, addr, ⟨qb, qc, qcl⟩, errChan, md, o⟩ := l
      dsimp only at hcs hq hopen hbuf
      subst hcs
      unfold acceptAll
      dsimp only
      rw [Accept_open w _ p hopen hbuf hq]
      dsimp only
      rw [ih _ ps hopen hbuf hq rfl (by simpa using hlen)]
      simp

theorem connOf_injective (w : World) (l : http2Listener) :
    Function.Injective (connOf w l) := by
  intro a b hab
  have := congrArg conn.md hab
  simpa [connOf] using this

/-- C7: in every listener state reached from `Init` by `handleFunc`, `Accept` and `Close`
calls the queue has the backlog as capacity and holds at most that many connections; and a
`handleFunc` call that finds the queue full returns at once with the client discarded,
without enqueueing and without waiting on `conn.Done()`, leaving the listener unchanged. -/
theorem cqueue_never_exceeds_backlog (w : World) (o : Options) (l0 : http2Listener)
    (ops : List Op) (hinit : Init w o = Except.ok l0) :
    (run w l0 ops).cqueue.cap = l0.md.backlog ∧
    (run w l0 ops).cqueue.buf.length ≤ l0.md.backlog ∧
    ∀ r, (run w l0 ops).cqueue.buf.length = l0.md.backlog →
      handleFunc w (run w l0 ops) r = (HandleResult.discarded r.RemoteAddr, run w l0 ops) := by
  have hinv := run_inv w ops l0 (Init_spec w o l0 hinit).1
  have hmd := run_backlog w ops l0
  obtain ⟨h1, h2, h3, -, -, -⟩ := hinv
  rw [hmd] at h2
  refine ⟨h2, by omega, ?_⟩
  intro r hfull
  rw [handleFunc_eq]
  simp [h3, h2, hfull]

/-- Witness for C7: a backlog of 2 and three exchanges, then one more on the full queue. -/
theorem cqueue_never_exceeds_backlog_witness :
    Init (exWorld 2) allSet = Except.ok (exListener 2) ∧
    (run (exWorld 2) (exListener 2)
      [Op.handle (exRequest 0), Op.handle (exRequest 1), Op.handle (exRequest 2)]).cqueue.cap
      = (exListener 2).md.backlog ∧
    (run (exWorld 2) (exListener 2)
      [Op.handle (exRequest 0), Op.handle (exRequest 1), Op.handle (exRequest 2)]
      ).cqueue.buf.length ≤ (exListener 2).md.backlog ∧
    ∀ r, (run (exWorld 2) (exListener 2)
        [Op.handle (exRequest 0), Op.handle (exRequest 1), Op.handle (exRequest 2)]
        ).cqueue.buf.length = (exListener 2).md.backlog →
      handleFunc (exWorld 2) (run (exWorld 2) (exListener 2)
        [Op.handle (exRequest 0), Op.handle (exRequest 1), Op.handle (exRequest 2)]) r
      = (HandleResult.discarded r.RemoteAddr, run (exWorld 2) (exListener 2)
        [Op.handle (exRequest 0), Op.handle (exRequest 1), Op.handle (exRequest 2)]) :=
  ⟨rfl, cqueue_never_exceeds_backlog (exWorld 2) allSet (exListener 2)
    [Op.handle (exRequest 0), Op.handle (exRequest 1), Op.handle (exRequest 2)] rfl⟩

/-- C8: on an open listener whose queue holds `q` and so has room for
`k = backlog - q.length` more, of `n` exchanges arriving with no `Accept` in between exactly
the first `min n k` are enqueued and the others discarded; the next `q.length + min n k`
`Accept` calls return the queued connections and then the new ones, in arrival order and
each once, and the `Accept` after them finds nothing left and blocks.  On an empty queue
`k` is the backlog, and distinct exchanges are delivered without repetition. -/
theorem Accept_fifo_exactly_once (w : World) (l : http2Listener) (rs : List Request)
    (picks : List Bool) (hr : Reachable w l) (hopen : l.errChan.closed = false)
    (hpicks : picks.length
      = l.cqueue.buf.length + min rs.length (l.md.backlog - l.cqueue.buf.length)) :
    (handleAll w l rs).1 =
      (rs.take (l.md.backlog - l.cqueue.buf.length)).map
        (fun r => HandleResult.awaitsDone (connOf w l r)) ++
      (rs.drop (l.md.backlog - l.cqueue.buf.length)).map
        (fun r => HandleResult.discarded r.RemoteAddr) ∧
    (acceptAll w (handleAll w l rs).2 picks).1 =
      (l.cqueue.buf ++ (rs.take (l.md.backlog - l.cqueue.buf.length)).map (connOf w l)).map
        (fun c => AcceptResult.returned (some c) none) ∧
    ((l.cqueue.buf ++ (rs.take (l.md.backlog - l.cqueue.buf.length)).map (connOf w l)).Nodup →
      (acceptAll w (handleAll w l rs).2 picks).1.Nodup) ∧
    (∀ p, (Accept w (acceptAll w (handleAll w l rs).2 picks).2 p).1 = AcceptResult.blocked) ∧
    (l.cqueue.buf = [] → l.md.backlog - l.cqueue.buf.length = l.md.backlog ∧
      (rs.Nodup → (acceptAll w (handleAll w l rs).2 picks).1.Nodup)) := by
  obtain ⟨h1, h2, h3, h4, h5, h6⟩ := Reachable_inv w l hr
  have hbuf := h5 hopen
  have hall := handleAll_spec w rs l h3
  rw [h2] at hall
  have hacc := acceptAll_open w
    (l.cqueue.buf ++ (rs.take (l.md.backlog - l.cqueue.buf.length)).map (connOf w l))
    (handleAll w l rs).2 picks (by rw [hall]; exact hopen) (by rw [hall]; exact hbuf)
    (by rw [hall]; exact h3) (by rw [hall])
    (by rw [hpicks]; simp [List.length_take, Nat.min_comm])
  refine ⟨by rw [hall], by rw [hacc], ?_, ?_, ?_⟩
  · intro hnd
    rw [hacc]
    refine List.Nodup.map ?_ hnd
    intro a b hab
    simpa using hab
  · intro p
    rw [hacc]
    dsimp only
    rw [Accept_open w _ p (by rw [hall]; exact hopen) (by rw [hall]; exact hbuf)
      (by rw [hall]; exact h3)]
  · intro hq
    refine ⟨by rw [hq]; rfl, ?_⟩
    intro hnd
    rw [hacc, hq, List.nil_append, List.map_map]
    refine List.Nodup.map ?_ (hnd.sublist (List.take_sublist _ _))
    intro a b hab
    simp only [Function.comp_apply, AcceptResult.returned.injEq, Option.some.injEq,
      and_true] at hab
    exact connOf_injective w l hab

/-- Witness for C8: 200 exchanges against an empty queue with a backlog of 128: the first 128
are enqueued and delivered in arrival order, the other 72 are discarded. -/
theorem Accept_fifo_exactly_once_witness :
    (exListener 128).errChan.closed = false ∧ (exListener 128).cqueue.buf = [] ∧
    (exListener 128).md.backlog - (exListener 128).cqueue.buf.length = 128 ∧
    (List.replicate 128 false).length = (exListener 128).cqueue.buf.length +
      min ((List.range 200).map exRequest).length
        ((exListener 128).md.backlog - (exListener 128).cqueue.buf.length) ∧
    (((List.range 200).map exRequest).take 128).length = 128 ∧
    (((List.range 200).map exRequest).drop 128).length = 72 ∧
    (handleAll (exWorld 128) (exListener 128) ((List.range 200).map exRequest)).1 =
      (((List.range 200).map exRequest).take
        ((exListener 128).md.backlog - (exListener 128).cqueue.buf.length)).map
        (fun r => HandleResult.awaitsDone (connOf (exWorld 128) (exListener 128) r)) ++
      (((List.range 200).map exRequest).drop
        ((exListener 128).md.backlog - (exListener 128).cqueue.buf.length)).map
        (fun r => HandleResult.discarded r.RemoteAddr) ∧
    (acceptAll (exWorld 128)
        (handleAll (exWorld 128) (exListener 128) ((List.range 200).map exRequest)).2
        (List.replicate 128 false)).1 =
      ((exListener 128).cqueue.buf ++ (((List.range 200).map exRequest).take
        ((exListener 128).md.backlog - (exListener 128).cqueue.buf.length)).map
          (connOf (exWorld 128) (exListener 128))).map
        (fun c => AcceptResult.returned (some c) none) :=
  ⟨rfl, rfl, rfl, by simp [exListener], by simp, by simp,
    (Accept_fifo_exactly_once (exWorld 128) (exListener 128) ((List.range 200).map exRequest)
      (List.replicate 128 false) ⟨allSet, exListener 128, [], rfl, rfl⟩ rfl
      (by simp [exListener])).1,
    (Accept_fifo_exactly_once (exWorld 128) (exListener 128) ((List.range 200).map exRequest)
      (List.replicate 128 false) ⟨allSet, exListener 128, [], rfl, rfl⟩ rfl
      (by simp [exListener])).2.1⟩

theorem step_closed (w : World) (l : http2Listener) (op : Op)
    (hc : l.errChan.closed = true) : (step w l op).errChan.closed = true := by
  cases op with
  | handle r =>
    simp only [step]
    rw [handleFunc_eq]
    split
    · exact hc
    · split <;> exact hc
  | accept p =>
    have h3 := (recv_spec l.errChan).2.2.1
    simp only [step, Accept]
    split
    · exact hc
    · split
      · split <;> (dsimp only; rw [h3]; exact hc)
      · exact hc
  | close =>
    have h3 := (recv_spec l.errChan).2.2.1
    simp only [step]
    rw [Close_closed w l hc]
    dsimp only
    rw [h3]
    exact hc

theorem run_closed (w : World) (ops : List Op) (l : http2Listener) (hi : Inv l)
    (hc : l.errChan.closed = true) : (run w l ops).errChan.closed = true := by
  induction ops generalizing l with
  | nil => exact hc
  | cons op ops ih => exact ih _ (step_inv w l op hi) (step_closed w l op hc)

theorem Close_closes (w : World) (l : http2Listener) (hi : Inv l) :
    (Close w l).2.2.errChan.closed = true := by
  cases hc : l.errChan.closed with
  | true =>
    rw [Close_closed w l hc]
    dsimp only
    rw [(recv_spec l.errChan).2.2.1]
    exact hc
  | false => rw [Close_open w l hi hc]

theorem recv_short {α : Type} (ch : Chan α) (h : ch.buf.length ≤ 1) :
    ch.recv.2 = { ch with buf := [] } := by
  obtain ⟨buf, cap, closed⟩ := ch
  cases buf with
  | nil => rfl
  | cons v rest =>
    have : rest = [] := List.length_eq_zero.mp (by simpa using h)
    subst this
    rfl

/-- What `Accept` does on a closed listener whose queue is empty: it takes the `errChan`
case, returns the buffered value when there is one and `ErrClosed` otherwise, and leaves
the error channel drained. -/
theorem Accept_closed_empty (w : World) (l : http2Listener) (p : Bool) (hi : Inv l)
    (hc : l.errChan.closed = true) (hq : l.cqueue.buf = []) :
    Accept w l p =
      (AcceptResult.returned none
        (match l.errChan.buf with
          | e :: _ => e
          | [] => some w.ErrClosed),
        { l with errChan := { l.errChan with buf := [] } }) := by
  obtain ⟨-, -, h3, -, -, h6⟩ := hi
  obtain ⟨server, addr, ⟨qb, qc, qcl⟩, ⟨eb, ec, ecl⟩, md, o⟩ := l
  dsimp only at hc hq h3 h6
  subst hc hq h3
  cases eb with
  | nil => simp [Accept, Chan.recvReady, Chan.recv]
  | cons e rest =>
    have : rest = [] := List.length_eq_zero.mp (by simpa using h6)
    subst this
    simp [Accept, Chan.recvReady, Chan.recv]

/-- On a closed listener `Accept` does not block, and a connection it returns is the head of
the queue, returned with a nil error. -/
theorem Accept_closed_spec (w : World) (l : http2Listener) (p : Bool) (hi : Inv l)
    (hc : l.errChan.closed = true) :
    (Accept w l p).1 ≠ AcceptResult.blocked ∧
    ∀ c e, (Accept w l p).1 = AcceptResult.returned (some c) e →
      l.cqueue.buf.head? = some c ∧ e = none := by
  obtain ⟨-, -, h3, -, -, h6⟩ := hi
  obtain ⟨server, addr, ⟨qb, qc, qcl⟩, ⟨eb, ec, ecl⟩, md, o⟩ := l
  dsimp only at hc h3 h6
  subst hc h3
  cases qb with
  | nil =>
    cases eb with
    | nil => simp [Accept, Chan.recvReady, Chan.recv]
    | cons e rest => simp [Accept, Chan.recvReady, Chan.recv]
  | cons c cs =>
    cases p with
    | false =>
      simp [Accept, Chan.recvReady, Chan.recv]
    | true =>
      cases eb with
      | nil => simp [Accept, Chan.recvReady, Chan.recv]
      | cons e rest => simp [Accept, Chan.recvReady, Chan.recv]

/-- C5, as stated, fails: after `Close` has returned on a fresh listener, the first `Accept`
returns the value that `Close` buffered, here nil, and not `ErrClosed`; and with a
connection queued, `Accept` may return that connection. -/
theorem Accept_after_Close_counterexample :
    Init (exWorld 2) allSet = Except.ok (exListener 2) ∧
    (Close (exWorld 2) (exListener 2)).1 = CloseResult.returned none ∧
    (Accept (exWorld 2) (Close (exWorld 2) (exListener 2)).2.2 true).1
      = AcceptResult.returned none none ∧
    (Accept (exWorld 2) (Close (exWorld 2) (exListener 2)).2.2 false).1
      = AcceptResult.returned none none ∧
    (Accept (exWorld 2)
        (Close (exWorld 2) (handleFunc (exWorld 2) (exListener 2) (exRequest 0)).2).2.2 false).1
      = AcceptResult.returned (some (connOf (exWorld 2) (exListener 2) (exRequest 0))) none := by
  refine ⟨rfl, rfl, rfl, rfl, rfl⟩

/-- C5, amended: in every listener state `l` that follows a returned `Close`, `Accept` does
not block and returns a connection only as the head of a non-empty queue; when the queue is
empty it returns no connection and leaves the error channel drained; and when the queue is
empty and the error channel drained it returns `ErrClosed` and leaves the listener
unchanged.  A further `Close` also leaves the error channel drained. -/
theorem Accept_after_Close (w : World) (o : Options) (l0 l : http2Listener)
    (pre post : List Op) (hinit : Init w o = Except.ok l0)
    (hl : run w (Close w (run w l0 pre)).2.2 post = l) :
    (∀ p, (Accept w l p).1 ≠ AcceptResult.blocked) ∧
    (∀ p c e, (Accept w l p).1 = AcceptResult.returned (some c) e →
      l.cqueue.buf.head? = some c ∧ e = none) ∧
    (l.cqueue.buf = [] → ∀ p, (∃ e, (Accept w l p).1 = AcceptResult.returned none e) ∧
      (Accept w l p).2.cqueue.buf = [] ∧ (Accept w l p).2.errChan.buf = []) ∧
    (l.cqueue.buf = [] → l.errChan.buf = [] →
      ∀ p, Accept w l p = (AcceptResult.returned none (some w.ErrClosed), l)) ∧
    (Close w l).2.2.errChan.buf = [] := by
  have hi0 := run_inv w pre l0 (Init_spec w o l0 hinit).1
  have hi1 := Close_inv w _ hi0
  have hc1 := Close_closes w _ hi0
  have hi : Inv l := hl ▸ run_inv w post _ hi1
  have hc : l.errChan.closed = true := hl ▸ run_closed w post _ hi1 hc1
  refine ⟨fun p => (Accept_closed_spec w l p hi hc).1,
    fun p => (Accept_closed_spec w l p hi hc).2, ?_, ?_, ?_⟩
  · intro hq p
    rw [Accept_closed_empty w l p hi hc hq]
    exact ⟨⟨_, rfl⟩, hq, rfl⟩
  · intro hq hb p
    rw [Accept_closed_empty w l p hi hc hq, hb]
    obtain ⟨server, addr, cq, ⟨eb, ec, ecl⟩, md, o⟩ := l
    dsimp only at hb
    subst hb
    rfl
  · rw [Close_closed w l hc]
    dsimp only
    rw [recv_short l.errChan hi.2.2.2.2.2]

/-- Witness for C5 amended: a fresh listener, one `Close`, one `Accept` that consumes the
buffered close result, and then an `Accept` that returns `ErrClosed`. -/
theorem Accept_after_Close_witness :
    Init (exWorld 2) allSet = Except.ok (exListener 2) ∧
    (Accept (exWorld 2) (run (exWorld 2) (Close (exWorld 2) (run (exWorld 2) (exListener 2)
      [])).2.2 [Op.accept true]) true).1
      = AcceptResult.returned none (some (exWorld 2).ErrClosed) ∧
    ∀ p, (Accept (exWorld 2) (run (exWorld 2) (Close (exWorld 2) (run (exWorld 2)
      (exListener 2) [])).2.2 [Op.accept true]) p).1 ≠ AcceptResult.blocked :=
  ⟨rfl, rfl, (Accept_after_Close (exWorld 2) allSet (exListener 2) _ [] [Op.accept true]
    rfl rfl).1⟩

theorem Close_returns (w : World) (l : http2Listener) (hi : Inv l) :
    (Close w l).1 = CloseResult.returned none := by
  cases hc : l.errChan.closed with
  | true => rw [Close_closed w l hc]
  | false => rw [Close_open w l hi hc]

theorem closeN_results (w : World) (n : Nat) (l : http2Listener) (hi : Inv l) :
    (closeN w l n).1 = List.replicate n (CloseResult.returned none) := by
  induction n generalizing l with
  | zero => rfl
  | succ n ih =>
    unfold closeN
    dsimp only
    rw [Close_returns w l hi, ih _ (Close_inv w l hi)]
    rfl

theorem closeN_closed (w : World) (n : Nat) (l : http2Listener) (hi : Inv l)
    (hc : l.errChan.closed = true) :
    (closeN w l (n + 1)).2 = ([], { l with errChan := { l.errChan with buf := [] } }) := by
  induction n generalizing l with
  | zero =>
    unfold closeN
    dsimp only
    rw [Close_closed w l hc]
    dsimp only
    rw [recv_short l.errChan hi.2.2.2.2.2]
    rfl
  | succ n ih =>
    unfold closeN
    dsimp only
    have hi2 := Close_inv w l hi
    have hc2 := Close_closes w l hi
    rw [ih _ hi2 hc2, Close_closed w l hc]
    dsimp only
    rw [recv_short l.errChan hi.2.2.2.2.2]
    rfl

/-- C6, as stated, fails: the second `Close` is not a no-op.  It receives the close result
that the first call buffered, so the listener's state changes, and the next `Accept`
returns `ErrClosed` where it would have returned the buffered result (here nil). -/
theorem Close_second_call_counterexample :
    (Close (exWorld 2) (Close (exWorld 2) (exListener 2)).2.2).2.2
      ≠ (Close (exWorld 2) (exListener 2)).2.2 ∧
    (Close (exWorld 2) (exListener 2)).2.2.errChan.buf = [none] ∧
    (Close (exWorld 2) (Close (exWorld 2) (exListener 2)).2.2).2.2.errChan.buf = [] ∧
    (Accept (exWorld 2) (Close (exWorld 2) (exListener 2)).2.2 true).1
      = AcceptResult.returned none none ∧
    (Accept (exWorld 2) (Close (exWorld 2) (Close (exWorld 2) (exListener 2)).2.2).2.2 true).1
      = AcceptResult.returned none (some { Error := "listener closed" }) := by
  refine ⟨?_, rfl, rfl, rfl, rfl⟩
  intro h
  have h2 := congrArg (fun l => l.errChan.buf.length) h
  exact absurd h2 (by decide)

/-- C6, amended: in every listener state `l` reached from `Init`, each of `n` `Close` calls
in a row returns nil, without panic or block; the server is closed and the error channel
written and closed exactly once, by the first call, when `l` is still open, and not at all
when it is already closed; a `Close` on a closed listener changes nothing except that it
removes the close result still buffered in the error channel; and from the second call on
the listener's state no longer changes. -/
theorem Close_idempotent_from_second (w : World) (o : Options) (l0 l : http2Listener)
    (ops : List Op) (n : Nat) (hinit : Init w o = Except.ok l0) (hl : run w l0 ops = l) :
    (closeN w l n).1 = List.replicate n (CloseResult.returned none) ∧
    (closeN w l n).2.1 =
      (if l.errChan.closed = true ∨ n = 0 then []
       else [CloseEvent.serverClose, CloseEvent.errSend w.serverClose, CloseEvent.errClose]) ∧
    (l.errChan.closed = true →
      (Close w l).2.2 = { l with errChan := { l.errChan with buf := [] } }) ∧
    (closeN w l (n + 2)).2.2 = (closeN w l 2).2.2 := by
  have hi : Inv l := hl ▸ run_inv w ops l0 (Init_spec w o l0 hinit).1
  have hi2 := Close_inv w l hi
  have hc2 := Close_closes w l hi
  refine ⟨closeN_results w n l hi, ?_, ?_, ?_⟩
  · cases n with
    | zero => simp [closeN]
    | succ k =>
      cases hc : l.errChan.closed with
      | true => simp [closeN_closed w k l hi hc]
      | false =>
        unfold closeN
        dsimp only
        rw [Close_open w l hi hc]
        dsimp only
        cases k with
        | zero => simp [closeN]
        | succ j =>
          rw [closeN_closed w j _ (by have h := hi2; rw [Close_open w l hi hc] at h; exact h) rfl]
          simp
  · intro hc
    rw [Close_closed w l hc]
    dsimp only
    rw [recv_short l.errChan hi.2.2.2.2.2]
  · have e1 : (closeN w l (n + 2)).2.2 = (closeN w (Close w l).2.2 (n + 1)).2.2 := by
      conv_lhs => unfold closeN
    have e2 : (closeN w l 2).2.2 = (closeN w (Close w l).2.2 1).2.2 := by
      conv_lhs => unfold closeN
    rw [e1, e2, closeN_closed w n _ hi2 hc2, closeN_closed w 0 _ hi2 hc2]

/-- Witness for C6 amended: three `Close` calls on a fresh listener. -/
theorem Close_idempotent_from_second_witness :
    Init (exWorld 2) allSet = Except.ok (exListener 2) ∧
    (closeN (exWorld 2) (exListener 2) 3).1
      = [CloseResult.returned none, CloseResult.returned none, CloseResult.returned none] ∧
    (closeN (exWorld 2) (exListener 2) 3).2.1
      = [CloseEvent.serverClose, CloseEvent.errSend none, CloseEvent.errClose] ∧
    (closeN (exWorld 2) (exListener 2) (1 + 2)).2.2 = (closeN (exWorld 2) (exListener 2) 2).2.2 :=
  ⟨rfl, rfl, rfl, (Close_idempotent_from_second (exWorld 2) allSet (exListener 2)
    (exListener 2) [] 1 rfl rfl).2.2.2⟩

/-- C9, as stated, fails: with every capability set, admission and rate limiting do not wrap
outside proxy-protocol and metrics does not wrap outside them; a connection reaching
admission has passed through metrics only, and the `Accept` that calls into rate limiting is
the proxy-protocol layer's. -/
theorem wrapChain_order_counterexample :
    Init (exWorld 2) allSet = Except.ok (exListener 2) ∧
    (exListener 2).server.serving = some (wrapChain allSet (Ln.raw "tcp" ":8443")) ∧
    (wrapChain allSet (Ln.raw "tcp" ":8443")).wrapsOutside Layer.admission Layer.proxyproto
      = false ∧
    (wrapChain allSet (Ln.raw "tcp" ":8443")).wrapsOutside Layer.limiter Layer.proxyproto
      = false ∧
    (wrapChain allSet (Ln.raw "tcp" ":8443")).wrapsOutside Layer.metrics Layer.admission
      = false ∧
    (wrapChain allSet (Ln.raw "tcp" ":8443")).wrapsOutside Layer.metrics Layer.limiter
      = false ∧
    (wrapChain allSet (Ln.raw "tcp" ":8443")).passedBefore Layer.admission
      = [Layer.metrics] ∧
    (wrapChain allSet (Ln.raw "tcp" ":8443")).passedBefore Layer.limiter
      = [Layer.metrics, Layer.admission] ∧
    (wrapChain allSet (Ln.raw "tcp" ":8443")).callerOf Layer.admission
      = some Layer.limiter ∧
    (wrapChain allSet (Ln.raw "tcp" ":8443")).callerOf Layer.limiter
      = some Layer.proxyproto := by
  refine ⟨rfl, rfl, rfl, rfl, rfl, rfl, rfl, rfl, rfl, rfl⟩

/-- C9, amended: in the listener that `Init` passes to the server, admission and rate
limiting wrap outside metrics and inside proxy-protocol, for whichever of these capabilities
are set: proxy-protocol never lies inside admission or rate limiting, metrics never lies
outside them, and a connection reaching admission or rate limiting has not yet passed
through the proxy-protocol layer. -/
theorem wrapChain_order (w : World) (o : Options) (l : http2Listener)
    (hinit : Init w o = Except.ok l) :
    ∃ ln, l.server.serving = some ln ∧
      ln.layers = (if o.ProxyProtocol then [Layer.tls, Layer.proxyproto] else [Layer.tls]) ++
        (if o.RateLimiter then [Layer.limiter] else []) ++
        (if o.Admission then [Layer.admission] else []) ++
        (if o.Metrics then [Layer.metrics] else []) ∧
      ln.wrapsOutside Layer.proxyproto Layer.limiter = (o.ProxyProtocol && o.RateLimiter) ∧
      ln.wrapsOutside Layer.proxyproto Layer.admission = (o.ProxyProtocol && o.Admission) ∧
      ln.wrapsOutside Layer.limiter Layer.metrics = (o.RateLimiter && o.Metrics) ∧
      ln.wrapsOutside Layer.admission Layer.metrics = (o.Admission && o.Metrics) ∧
      ln.wrapsOutside Layer.limiter Layer.proxyproto = false ∧
      ln.wrapsOutside Layer.admission Layer.proxyproto = false ∧
      ln.wrapsOutside Layer.metrics Layer.limiter = false ∧
      ln.wrapsOutside Layer.metrics Layer.admission = false ∧
      Layer.proxyproto ∉ ln.passedBefore Layer.limiter ∧
      Layer.proxyproto ∉ ln.passedBefore Layer.admission := by
  refine ⟨_, (Init_spec w o l hinit).2.2.2.2.1, ?_⟩
  obtain ⟨a, sv, m, ad, rl, pp⟩ := o
  cases m <;> cases ad <;> cases rl <;> cases pp <;>
    simp [wrapChain, WrapListener, NewListener, Ln.layers, Ln.wrapsOutside, Ln.passedBefore]

/-- Witness for C9 amended: every capability set. -/
theorem wrapChain_order_witness :
    Init (exWorld 2) allSet = Except.ok (exListener 2) ∧
    ∃ ln, (exListener 2).server.serving = some ln ∧
      ln.layers = (if allSet.ProxyProtocol then [Layer.tls, Layer.proxyproto]
          else [Layer.tls]) ++
        (if allSet.RateLimiter then [Layer.limiter] else []) ++
        (if allSet.Admission then [Layer.admission] else []) ++
        (if allSet.Metrics then [Layer.metrics] else []) ∧
      ln.wrapsOutside Layer.proxyproto Layer.limiter
        = (allSet.ProxyProtocol && allSet.RateLimiter) ∧
      ln.wrapsOutside Layer.proxyproto Layer.admission
        = (allSet.ProxyProtocol && allSet.Admission) ∧
      ln.wrapsOutside Layer.limiter Layer.metrics = (allSet.RateLimiter && allSet.Metrics) ∧
      ln.wrapsOutside Layer.admission Layer.metrics = (allSet.Admission && allSet.Metrics) ∧
      ln.wrapsOutside Layer.limiter Layer.proxyproto = false ∧
      ln.wrapsOutside Layer.admission Layer.proxyproto = false ∧
      ln.wrapsOutside Layer.metrics Layer.limiter = false ∧
      ln.wrapsOutside Layer.metrics Layer.admission = false ∧
      Layer.proxyproto ∉ ln.passedBefore Layer.limiter ∧
      Layer.proxyproto ∉ ln.passedBefore Layer.admission :=
  ⟨rfl, wrapChain_order (exWorld 2) allSet (exListener 2) rfl⟩

end Http2
